import Mathlib

/-!
Shallow embedding of the task-board backend (`app/main.py`).

The in-memory stores `USERS`, `TASKS`, `BALANCES` and `TASK_COUNTER` become a
`St` record; Python dicts become association lists in insertion order
(`dict.setdefault` appends at the end, mutation rewrites the entry in place).
Each HTTP handler, after token resolution, becomes a function
`St → St × Option Err` that returns the resulting state together with the
error produced, if any.  Timestamps, float ratings and the notification /
SSE side channels carry no information relevant to the specified behaviour
and are omitted; every other field and every branch of the handlers is
translated line by line.
-/

namespace Taskboard

/-- Task status strings used in `main.py`: "free", "taken", "completed",
"confirmed", "rejected". -/
inductive Status where
  | free
  | taken
  | completed
  | confirmed
  | rejected
deriving DecidableEq

/-- One ledger-history entry, as appended by the handlers: a `kind` string
("freeze", "transfer", "return", "add", "withdraw_stub"), an amount and an
optional task reference. -/
structure HEntry where
  kind : String
  amount : Int
  task_ref : Option Nat
deriving DecidableEq

/-- One `BALANCES[uid]` record: current balance and append-only history. -/
structure Bal where
  balance : Int
  history : List HEntry
deriving DecidableEq

/-- The two integer counters of a `USERS[uid]["profile"]` dict (missing keys
read as 0 via `.get(..., 0)`, so a fresh profile is `⟨0, 0⟩`). -/
structure Profile where
  created_tasks : Int
  finished_tasks : Int
deriving DecidableEq

/-- A `TASKS[tid]` record.  `customer_rating` is the literal constant `5.0`
written at creation and never modified; it is carried as the integer 5.
`result_text` is absent until `complete` sets it; absence is carried as `""`. -/
structure Task where
  id : Nat
  title : String
  description : String
  price : Int
  category : String
  customer_id : Int
  customer_rating : Int
  status : Status
  performer_id : Option Int
  result_text : String
deriving DecidableEq

/-- The whole mutable module state of `main.py`. -/
structure St where
  users : List (Int × Profile)
  tasks : List Task
  balances : List (Int × Bal)
  counter : Nat
deriving DecidableEq

/-- `USERS = {}`, `TASKS = {}`, `BALANCES = {}`, `TASK_COUNTER = 1`. -/
def init : St := ⟨[], [], [], 1⟩

/-- Errors returned by the handlers (each constructor corresponds to one
`jsonify({"detail": ...}), code` site). -/
inductive Err where
  /-- 400 "Invalid payload" / "Invalid amount" -/
  | invalidInput
  /-- 400 "Insufficient balance" -/
  | insufficientFunds
  /-- 404 "Task not found" -/
  | notFound
  /-- 403 "Cannot take own task" / "Not your task" / "Only customer can ..." -/
  | forbidden
  /-- 400 "Task not available" / "Invalid status" -/
  | conflict
  /-- 400 "No performer" -/
  | noPerformer
deriving DecidableEq

/-! ### Association-list primitives (Python dict semantics) -/

/-- `d.get(k)` on a dict modelled as an assoc list. -/
def lookupBal (uid : Int) : List (Int × Bal) → Option Bal
  | [] => none
  | p :: rest => if p.1 = uid then some p.2 else lookupBal uid rest

/-- `b = d.setdefault(k, dflt)` followed by an in-place mutation `f` of `b`:
rewrites the entry for `uid` in place, or appends `(uid, f d)` when absent
(Python dicts keep insertion order and `setdefault` appends). -/
def modifyBal (uid : Int) (dflt : Bal) (f : Bal → Bal) : List (Int × Bal) → List (Int × Bal)
  | [] => [(uid, f dflt)]
  | p :: rest => if p.1 = uid then (p.1, f p.2) :: rest else p :: modifyBal uid dflt f rest

def lookupProf (uid : Int) : List (Int × Profile) → Option Profile
  | [] => none
  | p :: rest => if p.1 = uid then some p.2 else lookupProf uid rest

def modifyProf (uid : Int) (dflt : Profile) (f : Profile → Profile) :
    List (Int × Profile) → List (Int × Profile)
  | [] => [(uid, f dflt)]
  | p :: rest => if p.1 = uid then (p.1, f p.2) :: rest else p :: modifyProf uid dflt f rest

/-- `TASKS.get(task_id)`.  `TASKS` is keyed by task id and every stored task
has `task["id"]` equal to its key, so the dict is carried as a list of tasks
looked up through the `id` field. -/
def lookupTask (tid : Nat) : List Task → Option Task
  | [] => none
  | t :: rest => if t.id = tid then some t else lookupTask tid rest

/-- In-place mutation of `TASKS[task_id]`. -/
def modifyTask (tid : Nat) (f : Task → Task) : List Task → List Task
  | [] => []
  | t :: rest => if t.id = tid then f t :: rest else t :: modifyTask tid f rest

/-- The default record `{"balance": 0, "history": []}` used by `setdefault`
in every handler except `auth_telegram`. -/
def zeroBal : Bal := ⟨0, []⟩

/-! ### The handlers (token already resolved to `uid`) -/

/-- `auth_telegram` (state effect only): create the profile if absent and the
balance record `{"balance": 1000, "history": []}` if absent. -/
def auth_telegram (uid : Int) (s : St) : St × Option Err :=
  let users := match lookupProf uid s.users with
    | some _ => s.users
    | none => s.users ++ [(uid, ⟨0, 0⟩)]
  let balances := match lookupBal uid s.balances with
    | some _ => s.balances
    | none => s.balances ++ [(uid, ⟨1000, []⟩)]
  (⟨users, s.tasks, balances, s.counter⟩, none)

/-- `create_task`: payload validation, `setdefault` + funds check, debit,
`freeze` entry, insert the new task, bump `created_tasks` twice (once in the
guarded block at lines 329–334 and once more at line 336), bump the counter. -/
def create_task (uid : Int) (title description : String) (price : Int)
    (category : String) (s : St) : St × Option Err :=
  if title = "" ∨ description = "" ∨ category = "" ∨ price < 1 then
    (s, some .invalidInput)
  else
    let b := (lookupBal uid s.balances).getD zeroBal
    if b.balance < price then
      (⟨s.users, s.tasks, modifyBal uid zeroBal id s.balances, s.counter⟩,
        some .insufficientFunds)
    else
      let balances := modifyBal uid zeroBal
        (fun b => ⟨b.balance - price,
          b.history ++ [⟨"freeze", price, some s.counter⟩]⟩) s.balances
      let task : Task :=
        ⟨s.counter, title, description, price, category, uid, 5, .free, none, ""⟩
      let users := modifyProf uid ⟨0, 0⟩
        (fun p => ⟨p.created_tasks + 1, p.finished_tasks⟩) s.users
      let users := modifyProf uid ⟨0, 0⟩
        (fun p => ⟨p.created_tasks + 1, p.finished_tasks⟩) users
      (⟨users, s.tasks ++ [task], balances, s.counter + 1⟩, none)

/-- `take_task`: 404 when absent, 403 on self-take, 400 unless `free`,
otherwise set `taken` and the performer. -/
def take_task (uid : Int) (tid : Nat) (s : St) : St × Option Err :=
  match lookupTask tid s.tasks with
  | none => (s, some .notFound)
  | some t =>
    if t.customer_id = uid then (s, some .forbidden)
    else if t.status ≠ .free then (s, some .conflict)
    else
      (⟨s.users,
        modifyTask tid (fun t =>
          { t with status := .taken, performer_id := some uid }) s.tasks,
        s.balances, s.counter⟩, none)

/-- `complete_task`: 404 when absent, 403 unless the caller is the performer
(`t.get("performer_id") != uid`, so a missing performer is also 403),
400 unless `taken`, otherwise set `completed` and the result text. -/
def complete_task (uid : Int) (tid : Nat) (result_text : String) (s : St) :
    St × Option Err :=
  match lookupTask tid s.tasks with
  | none => (s, some .notFound)
  | some t =>
    if t.performer_id ≠ some uid then (s, some .forbidden)
    else if t.status ≠ .taken then (s, some .conflict)
    else
      (⟨s.users,
        modifyTask tid (fun t =>
          { t with status := .completed, result_text := result_text }) s.tasks,
        s.balances, s.counter⟩, none)

/-- `confirm_task`: 404 when absent, 403 unless the caller is the customer,
400 unless `completed`; then the status is set to `confirmed` *before* the
performer check, so the "No performer" 400 leaves the status mutated; on the
normal path the performer is credited, `transfer` appended and
`finished_tasks` bumped twice (lines 427–432 and again at 434–435). -/
def confirm_task (uid : Int) (tid : Nat) (s : St) : St × Option Err :=
  match lookupTask tid s.tasks with
  | none => (s, some .notFound)
  | some t =>
    if t.customer_id ≠ uid then (s, some .forbidden)
    else if t.status ≠ .completed then (s, some .conflict)
    else
      let tasks := modifyTask tid (fun t => { t with status := .confirmed }) s.tasks
      match t.performer_id with
      | none => (⟨s.users, tasks, s.balances, s.counter⟩, some .noPerformer)
      | some pid =>
        let balances := modifyBal pid zeroBal
          (fun b => ⟨b.balance + t.price,
            b.history ++ [⟨"transfer", t.price, some tid⟩]⟩) s.balances
        let users := modifyProf pid ⟨0, 0⟩
          (fun p => ⟨p.created_tasks, p.finished_tasks + 1⟩) s.users
        let users := modifyProf pid ⟨0, 0⟩
          (fun p => ⟨p.created_tasks, p.finished_tasks + 1⟩) users
        (⟨users, tasks, balances, s.counter⟩, none)

/-- `reject_task`: 404 when absent, 403 unless the caller is the customer,
400 unless `taken` or `completed`, otherwise set `rejected`, credit the
customer back and append a `return` entry. -/
def reject_task (uid : Int) (tid : Nat) (s : St) : St × Option Err :=
  match lookupTask tid s.tasks with
  | none => (s, some .notFound)
  | some t =>
    if t.customer_id ≠ uid then (s, some .forbidden)
    else if t.status ≠ .taken ∧ t.status ≠ .completed then (s, some .conflict)
    else
      let tasks := modifyTask tid (fun t => { t with status := .rejected }) s.tasks
      let balances := modifyBal uid zeroBal
        (fun b => ⟨b.balance + t.price,
          b.history ++ [⟨"return", t.price, some tid⟩]⟩) s.balances
      (⟨s.users, tasks, balances, s.counter⟩, none)

/-- `balance_add`: 400 unless `amount ≥ 1`, otherwise credit and append an
`add` entry. -/
def balance_add (uid : Int) (amount : Int) (s : St) : St × Option Err :=
  if amount < 1 then (s, some .invalidInput)
  else
    (⟨s.users, s.tasks,
      modifyBal uid zeroBal
        (fun b => ⟨b.balance + amount, b.history ++ [⟨"add", amount, none⟩]⟩)
        s.balances,
      s.counter⟩, none)

/-- `balance_withdraw` (a stub): append a `withdraw_stub` entry with the
requested amount — no validation, no balance change. -/
def balance_withdraw (uid : Int) (amount : Int) (s : St) : St × Option Err :=
  (⟨s.users, s.tasks,
    modifyBal uid zeroBal
      (fun b => ⟨b.balance, b.history ++ [⟨"withdraw_stub", amount, none⟩]⟩)
      s.balances,
    s.counter⟩, none)

/-- `list_tasks`: category filter (skipped for an empty string, Python
truthiness), inclusive price-range filters, then the sort branches.
Python's `list.sort(key=..., reverse=True)` is a stable descending sort,
modelled by `List.mergeSort` with the flipped comparator. -/
def list_tasks (category : Option String) (price_min price_max : Option Int)
    (sort : Option String) (s : St) : List Task :=
  let items := s.tasks
  let items := match category with
    | some c => if c = "" then items else items.filter (fun t => t.category = c)
    | none => items
  let items := match price_min with
    | some m => items.filter (fun t => m ≤ t.price)
    | none => items
  let items := match price_max with
    | some m => items.filter (fun t => t.price ≤ m)
    | none => items
  if sort = some "new" then items.mergeSort (fun a b => b.id ≤ a.id)
  else if sort = some "price" then items.mergeSort (fun a b => b.price ≤ a.price)
  else if sort = some "rating" then
    items.mergeSort (fun a b => b.customer_rating ≤ a.customer_rating)
  else items

/-! ### Operation alphabet and traces -/

/-- One state-mutating request, with the caller's identity already resolved. -/
inductive Op where
  | auth (uid : Int)
  | create (uid : Int) (title description : String) (price : Int) (category : String)
  | take (uid : Int) (tid : Nat)
  | complete (uid : Int) (tid : Nat) (result_text : String)
  | confirm (uid : Int) (tid : Nat)
  | reject (uid : Int) (tid : Nat)
  | add (uid : Int) (amount : Int)
  | withdraw (uid : Int) (amount : Int)
deriving DecidableEq

/-- Dispatch one operation. -/
def applyOp : Op → St → St × Option Err
  | .auth uid => auth_telegram uid
  | .create uid title description price category =>
      create_task uid title description price category
  | .take uid tid => take_task uid tid
  | .complete uid tid result_text => complete_task uid tid result_text
  | .confirm uid tid => confirm_task uid tid
  | .reject uid tid => reject_task uid tid
  | .add uid amount => balance_add uid amount
  | .withdraw uid amount => balance_withdraw uid amount

/-- The state after one operation (errors answer the caller, the state the
handler left behind persists). -/
def step (s : St) (o : Op) : St := (applyOp o s).1

/-- Run a trace of operations from a state. -/
def run (ops : List Op) (s : St) : St := ops.foldl step s

/-! ### Derived quantities -/

/-- Sum of all stored balances. -/
def balSum (l : List (Int × Bal)) : Int := (l.map (fun p => p.2.balance)).sum

/-- The escrowed contribution of one task: its price while the status is
non-terminal (`free`, `taken`, `completed`), zero once terminal. -/
def taskFrozen (t : Task) : Int :=
  if t.status = .free ∨ t.status = .taken ∨ t.status = .completed then t.price else 0

/-- Sum of the prices of all tasks in a non-terminal status. -/
def frozenSumL (l : List Task) : Int := (l.map taskFrozen).sum

/-- Total money visible in a state: user balances plus escrowed task prices. -/
def money (s : St) : Int := balSum s.balances + frozenSumL s.tasks

/-- The signed value of a history entry as the code maintains the balance:
`freeze` debits, `transfer`, `return` and `add` credit, and `withdraw_stub`
is recorded without touching the balance. -/
def entrySigned (e : HEntry) : Int :=
  if e.kind = "freeze" then -e.amount
  else if e.kind = "withdraw_stub" then 0
  else e.amount

/-- Signed sum of a ledger history as the code maintains it. -/
def signedSum (h : List HEntry) : Int := (h.map entrySigned).sum

/-- Modelled from the spec claim's wording for comparison: "freeze and
withdrawals negative; return, transfer and deposits positive". -/
def entrySignedClaim (e : HEntry) : Int :=
  if e.kind = "freeze" ∨ e.kind = "withdraw_stub" then -e.amount else e.amount

/-- Signed sum of a ledger history with the claim's weighting. -/
def signedSumClaim (h : List HEntry) : Int := (h.map entrySignedClaim).sum

/-- The balance a handler would observe for `uid` (the value after
`BALANCES.setdefault(uid, {"balance": 0, "history": []})`). -/
def effBal (s : St) (uid : Int) : Int :=
  ((lookupBal uid s.balances).getD zeroBal).balance

/-- The history a handler would observe for `uid`. -/
def effHist (s : St) (uid : Int) : List HEntry :=
  ((lookupBal uid s.balances).getD zeroBal).history

/-- Amount a single operation deposits from outside: the amount of a
successful `balance_add`, zero otherwise. -/
def addedOf : Op → Int
  | .add _ amount => if amount < 1 then 0 else amount
  | _ => 0

/-- Total outside deposits of a trace. -/
def totalAdded (ops : List Op) : Int := (ops.map addedOf).sum

/-- Membership in the operation list of the conservation claim:
`create`, `take`, `complete`, `confirm`, `reject`, `balance add`. -/
def conservedOp : Op → Bool
  | .auth _ => false
  | .withdraw _ _ => false
  | _ => true

/-- The legal status graph: `free → taken → completed → confirmed` and
`taken | completed → rejected`. -/
def legalEdge : Status → Status → Bool
  | .free, .taken => true
  | .taken, .completed => true
  | .completed, .confirmed => true
  | .taken, .rejected => true
  | .completed, .rejected => true
  | _, _ => false

/-- The task id an operation addresses, when it is a lifecycle operation. -/
def opTid : Op → Option Nat
  | .take _ tid => some tid
  | .complete _ tid _ => some tid
  | .confirm _ tid => some tid
  | .reject _ tid => some tid
  | _ => none

/-- The source-status precondition of a lifecycle operation. -/
def statusOk : Op → Status → Bool
  | .take _ _, st => st == .free
  | .complete _ _ _, st => st == .taken
  | .confirm _ _, st => st == .completed
  | .reject _ _, st => st == .taken || st == .completed
  | _, _ => true

/-- The actor precondition of a lifecycle operation (checked by the handlers
before the status precondition). -/
def actorOk : Op → Task → Bool
  | .take uid _, t => t.customer_id != uid
  | .complete uid _ _, t => t.performer_id == some uid
  | .confirm uid _, t => t.customer_id == uid
  | .reject uid _, t => t.customer_id == uid
  | _, _ => true

/-- A healthy balance record: non-negative, and equal to the signed sum of
its history plus the account's initial credit (0 for lazily created records,
1000 for records created by `auth_telegram`). -/
def balOk (b : Bal) : Prop :=
  0 ≤ b.balance ∧
    (b.balance = signedSum b.history ∨ b.balance = 1000 + signedSum b.history)

/-- A healthy task record: positive price, and a performer whenever the
status is `completed`. -/
def taskOk (t : Task) : Prop :=
  1 ≤ t.price ∧ (t.status = .completed → t.performer_id ≠ none)

/-- The reachable-state invariant. -/
def Inv (s : St) : Prop :=
  (∀ p ∈ s.balances, balOk p.2) ∧ (∀ t ∈ s.tasks, taskOk t)

/-! ### Association-list lemmas -/

theorem lookupBal_modifyBal_self (uid : Int) (dflt : Bal) (f : Bal → Bal)
    (l : List (Int × Bal)) :
    lookupBal uid (modifyBal uid dflt f l) = some (f ((lookupBal uid l).getD dflt)) := by
  induction l with
  | nil => simp [lookupBal, modifyBal]
  | cons p rest ih =>
    by_cases h : p.1 = uid
    · simp [lookupBal, modifyBal, h]
    · simp [lookupBal, modifyBal, h, ih]

theorem lookupBal_modifyBal_ne (uid v : Int) (dflt : Bal) (f : Bal → Bal)
    (l : List (Int × Bal)) (hne : v ≠ uid) :
    lookupBal v (modifyBal uid dflt f l) = lookupBal v l := by
  induction l with
  | nil => simp [lookupBal, modifyBal, hne.symm]
  | cons p rest ih =>
    have hvu : uid ≠ v := fun hc => hne hc.symm
    by_cases h : p.1 = uid
    · have : p.1 ≠ v := by rw [h]; exact hvu
      simp [lookupBal, modifyBal, h, this, hvu]
    · by_cases h2 : p.1 = v <;> simp [lookupBal, modifyBal, h, h2, ih, hne, hvu]

theorem mem_modifyBal (uid : Int) (dflt : Bal) (f : Bal → Bal)
    (l : List (Int × Bal)) (p : Int × Bal) (hp : p ∈ modifyBal uid dflt f l) :
    p ∈ l ∨ p = (uid, f ((lookupBal uid l).getD dflt)) := by
  induction l with
  | nil =>
    simp [modifyBal] at hp
    simp [lookupBal, hp]
  | cons q rest ih =>
    by_cases h : q.1 = uid
    · simp [modifyBal, h] at hp
      rcases hp with hp | hp
      · right; simp [lookupBal, h, hp]
      · left; exact List.mem_cons_of_mem _ hp
    · simp [modifyBal, h] at hp
      rcases hp with hp | hp
      · left; simp [hp]
      · rcases ih hp with h2 | h2
        · left; exact List.mem_cons_of_mem _ h2
        · right; simpa [lookupBal, h] using h2

theorem balSum_modifyBal (uid : Int) (dflt : Bal) (f : Bal → Bal)
    (l : List (Int × Bal)) (hd : dflt.balance = 0) :
    balSum (modifyBal uid dflt f l) =
      balSum l + (f ((lookupBal uid l).getD dflt)).balance
        - ((lookupBal uid l).getD dflt).balance := by
  induction l with
  | nil => simp [balSum, modifyBal, lookupBal, hd]
  | cons p rest ih =>
    by_cases h : p.1 = uid
    · simp [balSum, modifyBal, lookupBal, h]
      ring
    · simp only [modifyBal, h, if_false, balSum, List.map_cons, List.sum_cons,
        lookupBal, ite_false]
      simp only [balSum] at ih
      rw [ih]
      ring

theorem lookupBal_mem (uid : Int) (b : Bal) (l : List (Int × Bal))
    (h : lookupBal uid l = some b) : (uid, b) ∈ l := by
  induction l with
  | nil => simp [lookupBal] at h
  | cons p rest ih =>
    obtain ⟨k, w⟩ := p
    by_cases hp : k = uid
    · simp [lookupBal, hp] at h
      subst hp
      subst h
      exact List.mem_cons_self _ _
    · simp [lookupBal, hp] at h
      exact List.mem_cons_of_mem _ (ih h)

theorem lookupTask_mem (tid : Nat) (t : Task) (l : List Task)
    (h : lookupTask tid l = some t) : t ∈ l := by
  induction l with
  | nil => simp [lookupTask] at h
  | cons u rest ih =>
    by_cases hu : u.id = tid
    · simp [lookupTask, hu] at h
      simp [h]
    · simp [lookupTask, hu] at h
      exact List.mem_cons_of_mem _ (ih h)

theorem lookupTask_id (tid : Nat) (t : Task) (l : List Task)
    (h : lookupTask tid l = some t) : t.id = tid := by
  induction l with
  | nil => simp [lookupTask] at h
  | cons u rest ih =>
    by_cases hu : u.id = tid
    · simp [lookupTask, hu] at h
      rw [← h]; exact hu
    · simp [lookupTask, hu] at h
      exact ih h

theorem lookupTask_append_left (tid : Nat) (t : Task) (l l₂ : List Task)
    (h : lookupTask tid l = some t) :
    lookupTask tid (l ++ l₂) = some t := by
  induction l with
  | nil => simp [lookupTask] at h
  | cons u rest ih =>
    by_cases hu : u.id = tid
    · simp [lookupTask, hu] at h ⊢
      exact h
    · simp [lookupTask, hu] at h ⊢
      exact ih h

theorem lookupTask_modifyTask_self (tid : Nat) (f : Task → Task)
    (l : List Task) (hid : ∀ u, (f u).id = u.id) :
    lookupTask tid (modifyTask tid f l) = (lookupTask tid l).map f := by
  induction l with
  | nil => simp [lookupTask, modifyTask]
  | cons u rest ih =>
    by_cases hu : u.id = tid
    · simp [lookupTask, modifyTask, hu, hid]
    · simp [lookupTask, modifyTask, hu, ih]

theorem lookupTask_modifyTask_ne (tid tid₂ : Nat) (f : Task → Task)
    (l : List Task) (hne : tid ≠ tid₂) (hid : ∀ u, (f u).id = u.id) :
    lookupTask tid (modifyTask tid₂ f l) = lookupTask tid l := by
  induction l with
  | nil => simp [lookupTask, modifyTask]
  | cons u rest ih =>
    have h21 : tid₂ ≠ tid := fun hc => hne hc.symm
    by_cases hu : u.id = tid₂
    · have h1 : (f u).id ≠ tid := by rw [hid, hu]; exact h21
      have h2 : u.id ≠ tid := by rw [hu]; exact h21
      simp [lookupTask, modifyTask, hu, h1, h2, h21]
    · by_cases h2 : u.id = tid <;>
        simp [lookupTask, modifyTask, hu, h2, ih, hne, h21]

theorem mem_modifyTask (tid : Nat) (f : Task → Task) (l : List Task)
    (u : Task) (hu : u ∈ modifyTask tid f l) :
    u ∈ l ∨ ∃ t, lookupTask tid l = some t ∧ u = f t := by
  induction l with
  | nil => simp [modifyTask] at hu
  | cons v rest ih =>
    by_cases hv : v.id = tid
    · simp [modifyTask, hv] at hu
      rcases hu with hu | hu
      · right; exact ⟨v, by simp [lookupTask, hv], hu⟩
      · left; exact List.mem_cons_of_mem _ hu
    · simp [modifyTask, hv] at hu
      rcases hu with hu | hu
      · left; simp [hu]
      · rcases ih hu with h2 | h2
        · left; exact List.mem_cons_of_mem _ h2
        · right; simpa [lookupTask, hv] using h2

theorem signedSum_append (h : List HEntry) (e : HEntry) :
    signedSum (h ++ [e]) = signedSum h + entrySigned e := by
  simp [signedSum]

theorem balSum_append (l : List (Int × Bal)) (p : Int × Bal) :
    balSum (l ++ [p]) = balSum l + p.2.balance := by
  simp [balSum]

theorem frozenSumL_append (l : List Task) (t : Task) :
    frozenSumL (l ++ [t]) = frozenSumL l + taskFrozen t := by
  simp [frozenSumL]

theorem balOk_zeroBal : balOk zeroBal := by
  constructor
  · simp [zeroBal]
  · left; simp [zeroBal, signedSum]

theorem balOk_getD (uid : Int) (l : List (Int × Bal))
    (hb : ∀ p ∈ l, balOk p.2) : balOk ((lookupBal uid l).getD zeroBal) := by
  cases hfind : lookupBal uid l with
  | none => simpa using balOk_zeroBal
  | some b =>
    have := hb _ (lookupBal_mem uid b l hfind)
    simpa using this

/-- Appending a positively-weighted entry while crediting its amount keeps a
balance record healthy. -/
theorem balOk_credit (b : Bal) (hb : balOk b) (e : HEntry) (ha : 0 ≤ e.amount)
    (he : entrySigned e = e.amount) :
    balOk ⟨b.balance + e.amount, b.history ++ [e]⟩ := by
  obtain ⟨h0, hsum⟩ := hb
  constructor
  · simp only []
    omega
  · simp only [signedSum_append, he]
    omega

/-- Appending a `freeze` entry while debiting its amount keeps a balance
record healthy, provided funds suffice. -/
theorem balOk_freeze (b : Bal) (hb : balOk b) (a : Int) (r : Option Nat)
    (ha : a ≤ b.balance) :
    balOk ⟨b.balance - a, b.history ++ [⟨"freeze", a, r⟩]⟩ := by
  obtain ⟨h0, hsum⟩ := hb
  constructor
  · simp only []
    omega
  · have : entrySigned ⟨"freeze", a, r⟩ = -a := by simp [entrySigned]
    simp only [signedSum_append, this]
    omega

/-- Appending a `withdraw_stub` entry (weight zero, balance untouched) keeps
a balance record healthy. -/
theorem balOk_withdraw_stub (b : Bal) (hb : balOk b) (a : Int) :
    balOk ⟨b.balance, b.history ++ [⟨"withdraw_stub", a, none⟩]⟩ := by
  obtain ⟨h0, hsum⟩ := hb
  constructor
  · exact h0
  · have : entrySigned ⟨"withdraw_stub", a, none⟩ = 0 := by simp [entrySigned]
    simp only [signedSum_append, this]
    omega

theorem frozenSumL_modifyTask (tid : Nat) (f : Task → Task) (l : List Task)
    (t : Task) (hfind : lookupTask tid l = some t) :
    frozenSumL (modifyTask tid f l) =
      frozenSumL l - taskFrozen t + taskFrozen (f t) := by
  induction l with
  | nil => simp [lookupTask] at hfind
  | cons u rest ih =>
    by_cases hu : u.id = tid
    · simp [lookupTask, hu] at hfind
      subst hfind
      simp [frozenSumL, modifyTask, hu]
      ring
    · simp [lookupTask, hu] at hfind
      simp only [modifyTask, hu, if_false, frozenSumL, List.map_cons, List.sum_cons]
      simp only [frozenSumL] at ih
      rw [ih hfind]
      ring

/-! ### Branch equations for the handlers -/

theorem create_task_invalid (uid : Int) (title description : String)
    (price : Int) (category : String) (s : St)
    (hv : title = "" ∨ description = "" ∨ category = "" ∨ price < 1) :
    create_task uid title description price category s = (s, some .invalidInput) := by
  simp [create_task, hv]

theorem create_task_poor (uid : Int) (title description : String)
    (price : Int) (category : String) (s : St)
    (hv : ¬(title = "" ∨ description = "" ∨ category = "" ∨ price < 1))
    (hf : ((lookupBal uid s.balances).getD zeroBal).balance < price) :
    create_task uid title description price category s =
      (⟨s.users, s.tasks, modifyBal uid zeroBal id s.balances, s.counter⟩,
        some .insufficientFunds) := by
  simp [create_task, hv, hf]

theorem create_task_success (uid : Int) (title description : String)
    (price : Int) (category : String) (s : St)
    (hv : ¬(title = "" ∨ description = "" ∨ category = "" ∨ price < 1))
    (hf : ¬((lookupBal uid s.balances).getD zeroBal).balance < price) :
    create_task uid title description price category s =
      (⟨modifyProf uid ⟨0, 0⟩ (fun p => ⟨p.created_tasks + 1, p.finished_tasks⟩)
          (modifyProf uid ⟨0, 0⟩ (fun p => ⟨p.created_tasks + 1, p.finished_tasks⟩)
            s.users),
        s.tasks ++
          [⟨s.counter, title, description, price, category, uid, 5, .free, none, ""⟩],
        modifyBal uid zeroBal
          (fun b => ⟨b.balance - price,
            b.history ++ [⟨"freeze", price, some s.counter⟩]⟩) s.balances,
        s.counter + 1⟩, none) := by
  simp [create_task, hv, hf]

theorem take_task_notFound (uid : Int) (tid : Nat) (s : St)
    (hfind : lookupTask tid s.tasks = none) :
    take_task uid tid s = (s, some .notFound) := by
  simp [take_task, hfind]

theorem take_task_own (uid : Int) (tid : Nat) (s : St) (t : Task)
    (hfind : lookupTask tid s.tasks = some t) (hc : t.customer_id = uid) :
    take_task uid tid s = (s, some .forbidden) := by
  simp [take_task, hfind, hc]

theorem take_task_conflict (uid : Int) (tid : Nat) (s : St) (t : Task)
    (hfind : lookupTask tid s.tasks = some t) (hc : t.customer_id ≠ uid)
    (hst : t.status ≠ .free) :
    take_task uid tid s = (s, some .conflict) := by
  simp [take_task, hfind, hc, hst]

theorem take_task_success (uid : Int) (tid : Nat) (s : St) (t : Task)
    (hfind : lookupTask tid s.tasks = some t) (hc : t.customer_id ≠ uid)
    (hst : t.status = .free) :
    take_task uid tid s =
      (⟨s.users,
        modifyTask tid (fun t =>
          { t with status := .taken, performer_id := some uid }) s.tasks,
        s.balances, s.counter⟩, none) := by
  simp [take_task, hfind, hc, hst]

theorem complete_task_notFound (uid : Int) (tid : Nat) (rt : String) (s : St)
    (hfind : lookupTask tid s.tasks = none) :
    complete_task uid tid rt s = (s, some .notFound) := by
  simp [complete_task, hfind]

theorem complete_task_forbidden (uid : Int) (tid : Nat) (rt : String) (s : St)
    (t : Task) (hfind : lookupTask tid s.tasks = some t)
    (hp : t.performer_id ≠ some uid) :
    complete_task uid tid rt s = (s, some .forbidden) := by
  simp [complete_task, hfind, hp]

theorem complete_task_conflict (uid : Int) (tid : Nat) (rt : String) (s : St)
    (t : Task) (hfind : lookupTask tid s.tasks = some t)
    (hp : t.performer_id = some uid) (hst : t.status ≠ .taken) :
    complete_task uid tid rt s = (s, some .conflict) := by
  simp [complete_task, hfind, hp, hst]

theorem complete_task_success (uid : Int) (tid : Nat) (rt : String) (s : St)
    (t : Task) (hfind : lookupTask tid s.tasks = some t)
    (hp : t.performer_id = some uid) (hst : t.status = .taken) :
    complete_task uid tid rt s =
      (⟨s.users,
        modifyTask tid (fun t =>
          { t with status := .completed, result_text := rt }) s.tasks,
        s.balances, s.counter⟩, none) := by
  simp [complete_task, hfind, hp, hst]

theorem confirm_task_notFound (uid : Int) (tid : Nat) (s : St)
    (hfind : lookupTask tid s.tasks = none) :
    confirm_task uid tid s = (s, some .notFound) := by
  simp [confirm_task, hfind]

theorem confirm_task_forbidden (uid : Int) (tid : Nat) (s : St) (t : Task)
    (hfind : lookupTask tid s.tasks = some t) (hc : t.customer_id ≠ uid) :
    confirm_task uid tid s = (s, some .forbidden) := by
  simp [confirm_task, hfind, hc]

theorem confirm_task_conflict (uid : Int) (tid : Nat) (s : St) (t : Task)
    (hfind : lookupTask tid s.tasks = some t) (hc : t.customer_id = uid)
    (hst : t.status ≠ .completed) :
    confirm_task uid tid s = (s, some .conflict) := by
  simp [confirm_task, hfind, hc, hst]

theorem confirm_task_noPerformer (uid : Int) (tid : Nat) (s : St) (t : Task)
    (hfind : lookupTask tid s.tasks = some t) (hc : t.customer_id = uid)
    (hst : t.status = .completed) (hp : t.performer_id = none) :
    confirm_task uid tid s =
      (⟨s.users,
        modifyTask tid (fun t => { t with status := .confirmed }) s.tasks,
        s.balances, s.counter⟩, some .noPerformer) := by
  simp [confirm_task, hfind, hc, hst, hp]

theorem confirm_task_success (uid : Int) (tid : Nat) (s : St) (t : Task)
    (pid : Int) (hfind : lookupTask tid s.tasks = some t)
    (hc : t.customer_id = uid) (hst : t.status = .completed)
    (hp : t.performer_id = some pid) :
    confirm_task uid tid s =
      (⟨modifyProf pid ⟨0, 0⟩ (fun p => ⟨p.created_tasks, p.finished_tasks + 1⟩)
          (modifyProf pid ⟨0, 0⟩ (fun p => ⟨p.created_tasks, p.finished_tasks + 1⟩)
            s.users),
        modifyTask tid (fun t => { t with status := .confirmed }) s.tasks,
        modifyBal pid zeroBal
          (fun b => ⟨b.balance + t.price,
            b.history ++ [⟨"transfer", t.price, some tid⟩]⟩) s.balances,
        s.counter⟩, none) := by
  simp [confirm_task, hfind, hc, hst, hp]

theorem reject_task_notFound (uid : Int) (tid : Nat) (s : St)
    (hfind : lookupTask tid s.tasks = none) :
    reject_task uid tid s = (s, some .notFound) := by
  simp [reject_task, hfind]

theorem reject_task_forbidden (uid : Int) (tid : Nat) (s : St) (t : Task)
    (hfind : lookupTask tid s.tasks = some t) (hc : t.customer_id ≠ uid) :
    reject_task uid tid s = (s, some .forbidden) := by
  simp [reject_task, hfind, hc]

theorem reject_task_conflict (uid : Int) (tid : Nat) (s : St) (t : Task)
    (hfind : lookupTask tid s.tasks = some t) (hc : t.customer_id = uid)
    (hst : t.status ≠ .taken ∧ t.status ≠ .completed) :
    reject_task uid tid s = (s, some .conflict) := by
  simp [reject_task, hfind, hc, hst]

theorem reject_task_success (uid : Int) (tid : Nat) (s : St) (t : Task)
    (hfind : lookupTask tid s.tasks = some t) (hc : t.customer_id = uid)
    (hst : ¬(t.status ≠ .taken ∧ t.status ≠ .completed)) :
    reject_task uid tid s =
      (⟨s.users,
        modifyTask tid (fun t => { t with status := .rejected }) s.tasks,
        modifyBal uid zeroBal
          (fun b => ⟨b.balance + t.price,
            b.history ++ [⟨"return", t.price, some tid⟩]⟩) s.balances,
        s.counter⟩, none) := by
  simp only [reject_task, hfind, hc]
  simp [hst]

theorem balance_add_invalid (uid : Int) (amount : Int) (s : St)
    (ha : amount < 1) :
    balance_add uid amount s = (s, some .invalidInput) := by
  simp [balance_add, ha]

theorem balance_add_success (uid : Int) (amount : Int) (s : St)
    (ha : ¬amount < 1) :
    balance_add uid amount s =
      (⟨s.users, s.tasks,
        modifyBal uid zeroBal
          (fun b => ⟨b.balance + amount, b.history ++ [⟨"add", amount, none⟩]⟩)
          s.balances,
        s.counter⟩, none) := by
  simp [balance_add, ha]

/-! ### Invariant preservation -/

theorem Inv_auth (uid : Int) (s : St) (h : Inv s) :
    Inv (auth_telegram uid s).1 := by
  obtain ⟨hb, ht⟩ := h
  refine ⟨?_, ?_⟩
  · intro p hp
    simp only [auth_telegram] at hp
    cases hfind : lookupBal uid s.balances with
    | some b =>
      rw [hfind] at hp
      exact hb p hp
    | none =>
      rw [hfind] at hp
      simp only [List.mem_append, List.mem_singleton] at hp
      rcases hp with hp | hp
      · exact hb p hp
      · subst hp
        constructor
        · norm_num
        · right; simp [signedSum]
  · intro t htm
    simp only [auth_telegram] at htm
    exact ht t htm

theorem Inv_create (uid : Int) (title description : String) (price : Int)
    (category : String) (s : St) (h : Inv s) :
    Inv (create_task uid title description price category s).1 := by
  obtain ⟨hb, ht⟩ := h
  by_cases hv : title = "" ∨ description = "" ∨ category = "" ∨ price < 1
  · simpa [create_task, hv] using ⟨hb, ht⟩
  · by_cases hf : ((lookupBal uid s.balances).getD zeroBal).balance < price
    · refine ⟨?_, ?_⟩
      · intro p hp
        simp only [create_task, hv, if_false, hf, if_true] at hp
        rcases mem_modifyBal _ _ _ _ _ hp with h2 | h2
        · exact hb p h2
        · rw [h2]
          simpa using balOk_getD uid s.balances hb
      · intro t htm
        simp only [create_task, hv, if_false, hf, if_true] at htm
        exact ht t htm
    · have hp1 : 1 ≤ price := by omega
      refine ⟨?_, ?_⟩
      · intro p hp
        simp only [create_task, hv, if_false, hf, if_true] at hp
        rcases mem_modifyBal _ _ _ _ _ hp with h2 | h2
        · exact hb p h2
        · rw [h2]
          have h3 := balOk_getD uid s.balances hb
          have h4 := balOk_freeze _ h3 price (some s.counter) (by omega)
          simpa using h4
      · intro t htm
        simp only [create_task, hv, if_false, hf, if_true] at htm
        simp only [List.mem_append, List.mem_singleton] at htm
        rcases htm with htm | htm
        · exact ht t htm
        · subst htm
          exact ⟨hp1, by intro hc; cases hc⟩

theorem Inv_take (uid : Int) (tid : Nat) (s : St) (h : Inv s) :
    Inv (take_task uid tid s).1 := by
  obtain ⟨hb, ht⟩ := h
  cases hfind : lookupTask tid s.tasks with
  | none => simpa [take_task, hfind] using ⟨hb, ht⟩
  | some t =>
    by_cases hc : t.customer_id = uid
    · simpa [take_task, hfind, hc] using ⟨hb, ht⟩
    · by_cases hst : t.status = .free
      · refine ⟨?_, ?_⟩
        · intro p hp
          simp only [take_task, hfind, hc, hst] at hp
          simp at hp
          exact hb p hp
        intro u hu
        simp only [take_task, hfind, hc, hst] at hu
        simp at hu
        rcases mem_modifyTask _ _ _ _ hu with h2 | ⟨t₂, h2, h3⟩
        · exact ht u h2
        · rw [hfind] at h2
          cases h2
          subst h3
          have h4 := ht t (lookupTask_mem _ _ _ hfind)
          exact ⟨h4.1, by intro hx; cases hx⟩
      · simpa [take_task, hfind, hc, hst] using ⟨hb, ht⟩

theorem Inv_complete (uid : Int) (tid : Nat) (rt : String) (s : St) (h : Inv s) :
    Inv (complete_task uid tid rt s).1 := by
  obtain ⟨hb, ht⟩ := h
  cases hfind : lookupTask tid s.tasks with
  | none => simpa [complete_task, hfind] using ⟨hb, ht⟩
  | some t =>
    by_cases hp : t.performer_id = some uid
    · by_cases hst : t.status = .taken
      · refine ⟨?_, ?_⟩
        · intro q hq
          simp only [complete_task, hfind, hp, hst] at hq
          simp at hq
          exact hb q hq
        intro u hu
        simp only [complete_task, hfind, hp, hst] at hu
        simp at hu
        rcases mem_modifyTask _ _ _ _ hu with h2 | ⟨t₂, h2, h3⟩
        · exact ht u h2
        · rw [hfind] at h2
          cases h2
          subst h3
          have h4 := ht t (lookupTask_mem _ _ _ hfind)
          refine ⟨h4.1, ?_⟩
          intro _
          simp [hp]
      · simpa [complete_task, hfind, hp, hst] using ⟨hb, ht⟩
    · simpa [complete_task, hfind, hp] using ⟨hb, ht⟩

theorem Inv_confirm (uid : Int) (tid : Nat) (s : St) (h : Inv s) :
    Inv (confirm_task uid tid s).1 := by
  obtain ⟨hb, ht⟩ := h
  cases hfind : lookupTask tid s.tasks with
  | none => simpa [confirm_task, hfind] using ⟨hb, ht⟩
  | some t =>
    by_cases hc : t.customer_id = uid
    · by_cases hst : t.status = .completed
      · have htasks : ∀ u ∈ modifyTask tid
            (fun t => { t with status := Status.confirmed }) s.tasks, taskOk u := by
          intro u hu
          rcases mem_modifyTask _ _ _ _ hu with h2 | ⟨t₂, h2, h3⟩
          · exact ht u h2
          · rw [hfind] at h2
            cases h2
            subst h3
            have h4 := ht t (lookupTask_mem _ _ _ hfind)
            exact ⟨h4.1, by intro hx; cases hx⟩
        cases hperf : t.performer_id with
        | none =>
          refine ⟨?_, ?_⟩
          · intro p hp
            simp only [confirm_task, hfind, hc, hst, hperf] at hp
            simp at hp
            exact hb p hp
          intro u hu
          simp only [confirm_task, hfind, hc, hst, hperf] at hu
          simp at hu
          exact htasks u hu
        | some pid =>
          refine ⟨?_, ?_⟩
          · intro p hp
            simp only [confirm_task, hfind, hc, hst, hperf] at hp
            simp at hp
            rcases mem_modifyBal _ _ _ _ _ hp with h2 | h2
            · exact hb p h2
            · rw [h2]
              have h3 := balOk_getD pid s.balances hb
              have h5 : 1 ≤ t.price := (ht t (lookupTask_mem _ _ _ hfind)).1
              have h4 := balOk_credit _ h3 ⟨"transfer", t.price, some tid⟩
                (by simp; omega) (by simp [entrySigned])
              simpa using h4
          · intro u hu
            simp only [confirm_task, hfind, hc, hst, hperf] at hu
            simp at hu
            exact htasks u hu
      · simpa [confirm_task, hfind, hc, hst] using ⟨hb, ht⟩
    · simpa [confirm_task, hfind, hc] using ⟨hb, ht⟩

theorem Inv_reject (uid : Int) (tid : Nat) (s : St) (h : Inv s) :
    Inv (reject_task uid tid s).1 := by
  obtain ⟨hb, ht⟩ := h
  cases hfind : lookupTask tid s.tasks with
  | none => simpa [reject_task, hfind] using ⟨hb, ht⟩
  | some t =>
    by_cases hc : t.customer_id = uid
    · by_cases hst : t.status ≠ .taken ∧ t.status ≠ .completed
      · simpa [reject_task, hfind, hc, hst] using ⟨hb, ht⟩
      · refine ⟨?_, ?_⟩
        · intro p hp
          simp only [reject_task, hfind, hc, hst] at hp
          simp at hp
          rcases mem_modifyBal _ _ _ _ _ hp with h2 | h2
          · exact hb p h2
          · rw [h2]
            have h3 := balOk_getD uid s.balances hb
            have h5 : 1 ≤ t.price := (ht t (lookupTask_mem _ _ _ hfind)).1
            have h4 := balOk_credit _ h3 ⟨"return", t.price, some tid⟩
              (by simp; omega) (by simp [entrySigned])
            simpa using h4
        · intro u hu
          simp only [reject_task, hfind, hc, hst] at hu
          simp at hu
          rcases mem_modifyTask _ _ _ _ hu with h2 | ⟨t₂, h2, h3⟩
          · exact ht u h2
          · rw [hfind] at h2
            cases h2
            subst h3
            have h4 := ht t (lookupTask_mem _ _ _ hfind)
            exact ⟨h4.1, by intro hx; cases hx⟩
    · simpa [reject_task, hfind, hc] using ⟨hb, ht⟩

theorem Inv_add (uid : Int) (amount : Int) (s : St) (h : Inv s) :
    Inv (balance_add uid amount s).1 := by
  obtain ⟨hb, ht⟩ := h
  by_cases ha : amount < 1
  · simpa [balance_add, ha] using ⟨hb, ht⟩
  · refine ⟨?_, ?_⟩
    · intro p hp
      simp only [balance_add, ha, if_false] at hp
      rcases mem_modifyBal _ _ _ _ _ hp with h2 | h2
      · exact hb p h2
      · rw [h2]
        have h3 := balOk_getD uid s.balances hb
        have h4 := balOk_credit _ h3 ⟨"add", amount, none⟩
          (by simp; omega) (by simp [entrySigned])
        simpa using h4
    · intro t htm
      simp only [balance_add, ha, if_false] at htm
      exact ht t htm

theorem Inv_withdraw (uid : Int) (amount : Int) (s : St) (h : Inv s) :
    Inv (balance_withdraw uid amount s).1 := by
  obtain ⟨hb, ht⟩ := h
  refine ⟨?_, ?_⟩
  · intro p hp
    simp only [balance_withdraw] at hp
    rcases mem_modifyBal _ _ _ _ _ hp with h2 | h2
    · exact hb p h2
    · rw [h2]
      have h3 := balOk_getD uid s.balances hb
      have h4 := balOk_withdraw_stub _ h3 amount
      simpa using h4
  · intro t htm
    simp only [balance_withdraw] at htm
    exact ht t htm

theorem Inv_step (s : St) (o : Op) (h : Inv s) : Inv (step s o) := by
  cases o with
  | auth uid => exact Inv_auth uid s h
  | create uid title description price category =>
      exact Inv_create uid title description price category s h
  | take uid tid => exact Inv_take uid tid s h
  | complete uid tid rt => exact Inv_complete uid tid rt s h
  | confirm uid tid => exact Inv_confirm uid tid s h
  | reject uid tid => exact Inv_reject uid tid s h
  | add uid amount => exact Inv_add uid amount s h
  | withdraw uid amount => exact Inv_withdraw uid amount s h

theorem Inv_init : Inv init := by
  constructor <;> intro x hx <;> simp [init] at hx

theorem Inv_run (ops : List Op) : ∀ s : St, Inv s → Inv (run ops s) := by
  induction ops with
  | nil => intro s h; simpa [run] using h
  | cons o rest ih =>
    intro s h
    have : run (o :: rest) s = run rest (step s o) := by simp [run]
    rw [this]
    exact ih _ (Inv_step s o h)

/-! ### Money conservation -/

theorem money_create (uid : Int) (title description : String) (price : Int)
    (category : String) (s : St) :
    money (create_task uid title description price category s).1 = money s := by
  by_cases hv : title = "" ∨ description = "" ∨ category = "" ∨ price < 1
  · rw [create_task_invalid _ _ _ _ _ _ hv]
  · by_cases hf : ((lookupBal uid s.balances).getD zeroBal).balance < price
    · rw [create_task_poor _ _ _ _ _ _ hv hf]
      simp only [money]
      rw [balSum_modifyBal _ _ _ _ rfl]
      simp
    · rw [create_task_success _ _ _ _ _ _ hv hf]
      simp only [money]
      rw [balSum_modifyBal _ _ _ _ rfl, frozenSumL_append]
      simp [taskFrozen]
      ring

theorem money_take (uid : Int) (tid : Nat) (s : St) :
    money (take_task uid tid s).1 = money s := by
  cases hfind : lookupTask tid s.tasks with
  | none => rw [take_task_notFound _ _ _ hfind]
  | some t =>
    by_cases hc : t.customer_id = uid
    · rw [take_task_own _ _ _ _ hfind hc]
    · by_cases hst : t.status = .free
      · rw [take_task_success _ _ _ _ hfind hc hst]
        simp only [money]
        rw [frozenSumL_modifyTask _ _ _ _ hfind]
        simp [taskFrozen, hst]
      · rw [take_task_conflict _ _ _ _ hfind hc hst]

theorem money_complete (uid : Int) (tid : Nat) (rt : String) (s : St) :
    money (complete_task uid tid rt s).1 = money s := by
  cases hfind : lookupTask tid s.tasks with
  | none => rw [complete_task_notFound _ _ _ _ hfind]
  | some t =>
    by_cases hp : t.performer_id = some uid
    · by_cases hst : t.status = .taken
      · rw [complete_task_success _ _ _ _ _ hfind hp hst]
        simp only [money]
        rw [frozenSumL_modifyTask _ _ _ _ hfind]
        simp [taskFrozen, hst]
      · rw [complete_task_conflict _ _ _ _ _ hfind hp hst]
    · rw [complete_task_forbidden _ _ _ _ _ hfind hp]

theorem money_confirm (uid : Int) (tid : Nat) (s : St) (h : Inv s) :
    money (confirm_task uid tid s).1 = money s := by
  cases hfind : lookupTask tid s.tasks with
  | none => rw [confirm_task_notFound _ _ _ hfind]
  | some t =>
    by_cases hc : t.customer_id = uid
    · by_cases hst : t.status = .completed
      · cases hp : t.performer_id with
        | none => exact absurd hp ((h.2 t (lookupTask_mem _ _ _ hfind)).2 hst)
        | some pid =>
          rw [confirm_task_success _ _ _ _ _ hfind hc hst hp]
          simp only [money]
          rw [balSum_modifyBal _ _ _ _ rfl, frozenSumL_modifyTask _ _ _ _ hfind]
          simp [taskFrozen, hst]
          ring
      · rw [confirm_task_conflict _ _ _ _ hfind hc hst]
    · rw [confirm_task_forbidden _ _ _ _ hfind hc]

theorem money_reject (uid : Int) (tid : Nat) (s : St) :
    money (reject_task uid tid s).1 = money s := by
  cases hfind : lookupTask tid s.tasks with
  | none => rw [reject_task_notFound _ _ _ hfind]
  | some t =>
    by_cases hc : t.customer_id = uid
    · by_cases hst : t.status ≠ .taken ∧ t.status ≠ .completed
      · rw [reject_task_conflict _ _ _ _ hfind hc hst]
      · have hor : t.status = .taken ∨ t.status = .completed := by
          by_cases h1 : t.status = .taken
          · exact Or.inl h1
          · by_cases h2 : t.status = .completed
            · exact Or.inr h2
            · exact absurd ⟨h1, h2⟩ hst
        rw [reject_task_success _ _ _ _ hfind hc hst]
        simp only [money]
        rw [balSum_modifyBal _ _ _ _ rfl, frozenSumL_modifyTask _ _ _ _ hfind]
        rcases hor with h1 | h1 <;>
          · simp [taskFrozen, h1]
            ring
    · rw [reject_task_forbidden _ _ _ _ hfind hc]

theorem money_add (uid amount : Int) (s : St) :
    money (balance_add uid amount s).1 =
      money s + (if amount < 1 then 0 else amount) := by
  by_cases ha : amount < 1
  · rw [balance_add_invalid _ _ _ ha]
    simp [ha]
  · rw [balance_add_success _ _ _ ha]
    simp only [money, ha, if_false]
    rw [balSum_modifyBal _ _ _ _ rfl]
    simp
    ring

theorem money_step (s : St) (o : Op) (h : Inv s) (ho : conservedOp o = true) :
    money (step s o) = money s + addedOf o := by
  cases o with
  | auth uid => simp [conservedOp] at ho
  | withdraw uid amount => simp [conservedOp] at ho
  | create uid title description price category =>
      simpa [step, applyOp, addedOf] using
        money_create uid title description price category s
  | take uid tid => simpa [step, applyOp, addedOf] using money_take uid tid s
  | complete uid tid rt =>
      simpa [step, applyOp, addedOf] using money_complete uid tid rt s
  | confirm uid tid =>
      simpa [step, applyOp, addedOf] using money_confirm uid tid s h
  | reject uid tid => simpa [step, applyOp, addedOf] using money_reject uid tid s
  | add uid amount =>
      simpa [step, applyOp, addedOf] using money_add uid amount s

theorem money_run (ops : List Op) : ∀ s : St, Inv s →
    (∀ o ∈ ops, conservedOp o = true) →
    money (run ops s) = money s + totalAdded ops := by
  induction ops with
  | nil =>
    intro s _ _
    simp [run, totalAdded]
  | cons o rest ih =>
    intro s h ho
    have h1 : run (o :: rest) s = run rest (step s o) := by simp [run]
    rw [h1, ih _ (Inv_step s o h) (fun x hx => ho x (List.mem_cons_of_mem _ hx)),
      money_step s o h (ho o (List.mem_cons_self _ _))]
    simp [totalAdded]
    ring

/-! ### Claim theorems -/

/-- **C1**: money is conserved.  For every trace over the claim's operation
alphabet (`create`, `take`, `complete`, `confirm`, `reject`, `balance add`)
executed from the initial state, the sum of all users' balances plus the sum
of the prices of all tasks in a non-terminal status (`free`, `taken`,
`completed`) equals the sum of balances at process start plus all amounts
deposited by successful `balance add` operations. -/
theorem money_conserved (ops : List Op) (h : ∀ o ∈ ops, conservedOp o = true) :
    money (run ops init) = money init + totalAdded ops :=
  money_run ops init Inv_init h

theorem money_conserved_witness :
    (∀ o ∈ ([Op.add 1 500, Op.create 1 "t" "d" 200 "c", Op.take 2 1,
        Op.complete 2 1 "done", Op.confirm 1 1] : List Op),
      conservedOp o = true) ∧
    money (run [Op.add 1 500, Op.create 1 "t" "d" 200 "c", Op.take 2 1,
        Op.complete 2 1 "done", Op.confirm 1 1] init) =
      money init + totalAdded [Op.add 1 500, Op.create 1 "t" "d" 200 "c",
        Op.take 2 1, Op.complete 2 1 "done", Op.confirm 1 1] :=
  ⟨by decide, money_conserved _ (by decide)⟩

/-- **C3 counterexample**: the claim that the stored balance always equals
the signed sum of the ledger-history entries (freeze and withdrawals
negative, return/transfer/deposits positive) fails on the code: after
`auth(1)` (signup grant of 1000 coins with an empty history) and
`withdraw(1, 50)` (history entry appended, balance untouched) the stored
balance is 1000 while the claim's signed sum is -50. -/
theorem balance_history_sum_cex :
    effBal (run [Op.auth 1, Op.withdraw 1 50] init) 1 = 1000 ∧
    signedSumClaim (effHist (run [Op.auth 1, Op.withdraw 1 50] init) 1) = -50 ∧
    effBal (run [Op.auth 1, Op.withdraw 1 50] init) 1 ≠
      signedSumClaim (effHist (run [Op.auth 1, Op.withdraw 1 50] init) 1) := by
  decide

/-- **C3 (amended)**: in every reachable state, every stored balance equals
the account's initial credit (0 for records created lazily by a handler's
`setdefault`, 1000 for records created by `auth_telegram`) plus the signed
sum of its history, where `freeze` counts negative, `transfer`, `return`
and `add` count positive, and `withdraw_stub` entries count zero (the
withdraw stub records history without moving money). -/
theorem ledger_consistency (ops : List Op) (uid : Int) (b : Bal)
    (h : lookupBal uid (run ops init).balances = some b) :
    b.balance = signedSum b.history ∨ b.balance = 1000 + signedSum b.history :=
  ((Inv_run ops init Inv_init).1 _ (lookupBal_mem _ _ _ h)).2

theorem ledger_consistency_witness :
    lookupBal 1 (run [Op.auth 1, Op.withdraw 1 50, Op.add 1 7] init).balances =
      some ⟨1007, [⟨"withdraw_stub", 50, none⟩, ⟨"add", 7, none⟩]⟩ ∧
    ((1007 : Int) =
        signedSum [⟨"withdraw_stub", 50, none⟩, ⟨"add", 7, none⟩] ∨
      (1007 : Int) =
        1000 + signedSum [⟨"withdraw_stub", 50, none⟩, ⟨"add", 7, none⟩]) :=
  ⟨by decide, ledger_consistency [Op.auth 1, Op.withdraw 1 50, Op.add 1 7] 1
    ⟨1007, [⟨"withdraw_stub", 50, none⟩, ⟨"add", 7, none⟩]⟩ (by decide)⟩

/-- **C4**: in every reachable state every balance is non-negative, and a
`create` whose price exceeds the customer's observable balance (with a
payload that passes validation) fails with `InsufficientFunds` and changes
no balance, no history, no task and not the counter. -/
theorem balance_nonneg (ops : List Op) :
    (∀ p ∈ (run ops init).balances, 0 ≤ p.2.balance) ∧
    (∀ (s : St) (uid : Int) (title description category : String) (price : Int),
      title ≠ "" → description ≠ "" → category ≠ "" → 1 ≤ price →
      effBal s uid < price →
      (create_task uid title description price category s).2 =
          some Err.insufficientFunds ∧
      (∀ v, effBal (create_task uid title description price category s).1 v =
          effBal s v) ∧
      (∀ v, effHist (create_task uid title description price category s).1 v =
          effHist s v) ∧
      (create_task uid title description price category s).1.tasks = s.tasks ∧
      (create_task uid title description price category s).1.users = s.users ∧
      (create_task uid title description price category s).1.counter =
        s.counter) := by
  constructor
  · intro p hp
    exact ((Inv_run ops init Inv_init).1 p hp).1
  · intro s uid title description category price h1 h2 h3 h4 h5
    have hv : ¬(title = "" ∨ description = "" ∨ category = "" ∨ price < 1) := by
      push_neg
      exact ⟨h1, h2, h3, by omega⟩
    have hf : ((lookupBal uid s.balances).getD zeroBal).balance < price := h5
    rw [create_task_poor _ _ _ _ _ _ hv hf]
    refine ⟨rfl, ?_, ?_, rfl, rfl, rfl⟩
    · intro v
      by_cases hv2 : v = uid
      · subst hv2
        simp [effBal, lookupBal_modifyBal_self]
      · simp [effBal, lookupBal_modifyBal_ne _ _ _ _ _ hv2]
    · intro v
      by_cases hv2 : v = uid
      · subst hv2
        simp [effHist, lookupBal_modifyBal_self]
      · simp [effHist, lookupBal_modifyBal_ne _ _ _ _ _ hv2]

theorem balance_nonneg_witness :
    ((1 : Int), (⟨1005, [⟨"add", 5, none⟩]⟩ : Bal)) ∈
      (run [Op.auth 1, Op.add 1 5] init).balances ∧
    (0 : Int) ≤ 1005 ∧
    (("t" : String) ≠ "" ∧ ("d" : String) ≠ "" ∧ ("c" : String) ≠ "" ∧
      (1 : Int) ≤ 2000 ∧ effBal (run [Op.auth 1] init) 1 < 2000) ∧
    (create_task 1 "t" "d" 2000 "c" (run [Op.auth 1] init)).2 =
      some Err.insufficientFunds ∧
    effBal (create_task 1 "t" "d" 2000 "c" (run [Op.auth 1] init)).1 1 =
      effBal (run [Op.auth 1] init) 1 :=
  ⟨by decide,
    (balance_nonneg [Op.auth 1, Op.add 1 5]).1
      ((1 : Int), (⟨1005, [⟨"add", 5, none⟩]⟩ : Bal)) (by decide),
    ⟨by decide, by decide, by decide, by decide, by decide⟩,
    ((balance_nonneg []).2 (run [Op.auth 1] init) 1 "t" "d" "c" 2000
      (by decide) (by decide) (by decide) (by decide) (by decide)).1,
    ((balance_nonneg []).2 (run [Op.auth 1] init) 1 "t" "d" "c" 2000
      (by decide) (by decide) (by decide) (by decide) (by decide)).2.1 1⟩

/-- **C2 counterexample**: a status-mismatched attempt does not always
return Conflict/InvalidState — the actor checks run first.  After user 1
creates task 1 and user 2 takes it, task 1 is `taken` (so `take`'s required
source status `free` does not match), yet a `take` by user 1 (the customer)
answers `Forbidden` (403 "Cannot take own task"), not `Conflict`. -/
theorem status_error_kind_cex :
    (lookupTask 1 (run [Op.auth 1, Op.auth 2, Op.create 1 "t" "d" 5 "c",
        Op.take 2 1] init).tasks).map Task.status = some Status.taken ∧
    statusOk (Op.take 1 1) Status.taken = false ∧
    (applyOp (Op.take 1 1) (run [Op.auth 1, Op.auth 2, Op.create 1 "t" "d" 5 "c",
        Op.take 2 1] init)).2 = some Err.forbidden ∧
    some Err.forbidden ≠ some Err.conflict := by
  decide

/-- **C2 (amended)**: every task's status only ever moves along the legal
graph `free → taken → completed → confirmed`, `taken|completed → rejected`;
a lifecycle operation attempted when the task's status does not match its
required source status returns an error and leaves the state completely
unchanged, and that error is precisely `Conflict` whenever the actor passes
the operation's (earlier-checked) actor precondition — an actor failing the
actor check receives `Forbidden` instead. -/
theorem task_status_machine (o : Op) (s : St) (tid : Nat) (t : Task)
    (hfind : lookupTask tid s.tasks = some t) :
    (∀ t', lookupTask tid (step s o).tasks = some t' →
      t'.status = t.status ∨ legalEdge t.status t'.status = true) ∧
    (opTid o = some tid → statusOk o t.status = false →
      (applyOp o s).2 ≠ none ∧ step s o = s ∧
      (actorOk o t = true → (applyOp o s).2 = some .conflict) ∧
      (actorOk o t = false → (applyOp o s).2 = some .forbidden)) := by
  cases o with
  | auth uid =>
    refine ⟨?_, ?_⟩
    · intro t' h'
      have htk : (step s (Op.auth uid)).tasks = s.tasks := by
        simp [step, applyOp, auth_telegram]
      rw [htk, hfind] at h'
      cases h'
      exact Or.inl rfl
    · intro h
      simp [opTid] at h
  | create uid title description price category =>
    refine ⟨?_, ?_⟩
    · intro t' h'
      simp only [step, applyOp] at h'
      by_cases hv : title = "" ∨ description = "" ∨ category = "" ∨ price < 1
      · rw [create_task_invalid _ _ _ _ _ _ hv] at h'
        rw [hfind] at h'
        cases h'
        exact Or.inl rfl
      · by_cases hf : ((lookupBal uid s.balances).getD zeroBal).balance < price
        · rw [create_task_poor _ _ _ _ _ _ hv hf] at h'
          try simp only [] at h'
          rw [hfind] at h'
          cases h'
          exact Or.inl rfl
        · rw [create_task_success _ _ _ _ _ _ hv hf] at h'
          try simp only [] at h'
          rw [lookupTask_append_left _ _ _ _ hfind] at h'
          cases h'
          exact Or.inl rfl
    · intro h
      simp [opTid] at h
  | take uid tid₂ =>
    cases hfind₂ : lookupTask tid₂ s.tasks with
    | none =>
      refine ⟨?_, ?_⟩
      · intro t' h'
        simp only [step, applyOp] at h'
        rw [take_task_notFound _ _ _ hfind₂, hfind] at h'
        cases h'
        exact Or.inl rfl
      · intro h _
        simp only [opTid, Option.some.injEq] at h
        subst h
        rw [hfind] at hfind₂
        cases hfind₂
    | some t₂ =>
      by_cases hc : t₂.customer_id = uid
      · refine ⟨?_, ?_⟩
        · intro t' h'
          simp only [step, applyOp] at h'
          rw [take_task_own _ _ _ _ hfind₂ hc, hfind] at h'
          cases h'
          exact Or.inl rfl
        · intro h h2
          simp only [opTid, Option.some.injEq] at h
          subst h
          rw [hfind] at hfind₂
          cases hfind₂
          refine ⟨?_, ?_, ?_, ?_⟩
          · simp [applyOp, take_task_own _ _ _ _ hfind hc]
          · simp [step, applyOp, take_task_own _ _ _ _ hfind hc]
          · intro h3
            simp [actorOk, hc] at h3
          · intro _
            simp [applyOp, take_task_own _ _ _ _ hfind hc]
      · by_cases hst : t₂.status = .free
        · refine ⟨?_, ?_⟩
          · intro t' h'
            simp only [step, applyOp] at h'
            rw [take_task_success _ _ _ _ hfind₂ hc hst] at h'
            try simp only [] at h'
            by_cases htid : tid₂ = tid
            · subst htid
              rw [hfind] at hfind₂
              cases hfind₂
              rw [lookupTask_modifyTask_self _ _ _ (by intro u; rfl), hfind] at h'
              simp only [Option.map_some'] at h'
              cases h'
              right
              rw [hst]
              rfl
            · rw [lookupTask_modifyTask_ne _ _ _ _ (fun hx => htid hx.symm)
                (by intro u; rfl), hfind] at h'
              cases h'
              exact Or.inl rfl
          · intro h h2
            simp only [opTid, Option.some.injEq] at h
            subst h
            rw [hfind] at hfind₂
            cases hfind₂
            rw [hst] at h2
            simp [statusOk] at h2
        · refine ⟨?_, ?_⟩
          · intro t' h'
            simp only [step, applyOp] at h'
            rw [take_task_conflict _ _ _ _ hfind₂ hc hst, hfind] at h'
            cases h'
            exact Or.inl rfl
          · intro h _
            simp only [opTid, Option.some.injEq] at h
            subst h
            rw [hfind] at hfind₂
            cases hfind₂
            refine ⟨?_, ?_, ?_, ?_⟩
            · simp [applyOp, take_task_conflict _ _ _ _ hfind hc hst]
            · simp [step, applyOp, take_task_conflict _ _ _ _ hfind hc hst]
            · intro _
              simp [applyOp, take_task_conflict _ _ _ _ hfind hc hst]
            · intro h3
              simp [actorOk] at h3
              exact absurd h3 hc
  | complete uid tid₂ rt =>
    cases hfind₂ : lookupTask tid₂ s.tasks with
    | none =>
      refine ⟨?_, ?_⟩
      · intro t' h'
        simp only [step, applyOp] at h'
        rw [complete_task_notFound _ _ _ _ hfind₂, hfind] at h'
        cases h'
        exact Or.inl rfl
      · intro h _
        simp only [opTid, Option.some.injEq] at h
        subst h
        rw [hfind] at hfind₂
        cases hfind₂
    | some t₂ =>
      by_cases hp : t₂.performer_id = some uid
      · by_cases hst : t₂.status = .taken
        · refine ⟨?_, ?_⟩
          · intro t' h'
            simp only [step, applyOp] at h'
            rw [complete_task_success _ _ _ _ _ hfind₂ hp hst] at h'
            try simp only [] at h'
            by_cases htid : tid₂ = tid
            · subst htid
              rw [hfind] at hfind₂
              cases hfind₂
              rw [lookupTask_modifyTask_self _ _ _ (by intro u; rfl), hfind] at h'
              simp only [Option.map_some'] at h'
              cases h'
              right
              rw [hst]
              rfl
            · rw [lookupTask_modifyTask_ne _ _ _ _ (fun hx => htid hx.symm)
                (by intro u; rfl), hfind] at h'
              cases h'
              exact Or.inl rfl
          · intro h h2
            simp only [opTid, Option.some.injEq] at h
            subst h
            rw [hfind] at hfind₂
            cases hfind₂
            rw [hst] at h2
            simp [statusOk] at h2
        · refine ⟨?_, ?_⟩
          · intro t' h'
            simp only [step, applyOp] at h'
            rw [complete_task_conflict _ _ _ _ _ hfind₂ hp hst, hfind] at h'
            cases h'
            exact Or.inl rfl
          · intro h _
            simp only [opTid, Option.some.injEq] at h
            subst h
            rw [hfind] at hfind₂
            cases hfind₂
            refine ⟨?_, ?_, ?_, ?_⟩
            · simp [applyOp, complete_task_conflict _ _ _ _ _ hfind hp hst]
            · simp [step, applyOp, complete_task_conflict _ _ _ _ _ hfind hp hst]
            · intro _
              simp [applyOp, complete_task_conflict _ _ _ _ _ hfind hp hst]
            · intro h3
              simp [actorOk, hp] at h3
      · refine ⟨?_, ?_⟩
        · intro t' h'
          simp only [step, applyOp] at h'
          rw [complete_task_forbidden _ _ _ _ _ hfind₂ hp, hfind] at h'
          cases h'
          exact Or.inl rfl
        · intro h _
          simp only [opTid, Option.some.injEq] at h
          subst h
          rw [hfind] at hfind₂
          cases hfind₂
          refine ⟨?_, ?_, ?_, ?_⟩
          · simp [applyOp, complete_task_forbidden _ _ _ _ _ hfind hp]
          · simp [step, applyOp, complete_task_forbidden _ _ _ _ _ hfind hp]
          · intro h3
            simp [actorOk, hp] at h3
          · intro _
            simp [applyOp, complete_task_forbidden _ _ _ _ _ hfind hp]
  | confirm uid tid₂ =>
    cases hfind₂ : lookupTask tid₂ s.tasks with
    | none =>
      refine ⟨?_, ?_⟩
      · intro t' h'
        simp only [step, applyOp] at h'
        rw [confirm_task_notFound _ _ _ hfind₂, hfind] at h'
        cases h'
        exact Or.inl rfl
      · intro h _
        simp only [opTid, Option.some.injEq] at h
        subst h
        rw [hfind] at hfind₂
        cases hfind₂
    | some t₂ =>
      by_cases hc : t₂.customer_id = uid
      · by_cases hst : t₂.status = .completed
        · have hgraph : ∀ t', lookupTask tid (step s (Op.confirm uid tid₂)).tasks =
              some t' → t'.status = t.status ∨ legalEdge t.status t'.status = true := by
            intro t' h'
            simp only [step, applyOp] at h'
            cases hperf : t₂.performer_id with
            | none =>
              rw [confirm_task_noPerformer _ _ _ _ hfind₂ hc hst hperf] at h'
              try simp only [] at h'
              by_cases htid : tid₂ = tid
              · subst htid
                rw [hfind] at hfind₂
                cases hfind₂
                rw [lookupTask_modifyTask_self _ _ _ (by intro u; rfl), hfind] at h'
                simp only [Option.map_some'] at h'
                cases h'
                right
                rw [hst]
                rfl
              · rw [lookupTask_modifyTask_ne _ _ _ _ (fun hx => htid hx.symm)
                  (by intro u; rfl), hfind] at h'
                cases h'
                exact Or.inl rfl
            | some pid =>
              rw [confirm_task_success _ _ _ _ _ hfind₂ hc hst hperf] at h'
              try simp only [] at h'
              by_cases htid : tid₂ = tid
              · subst htid
                rw [hfind] at hfind₂
                cases hfind₂
                rw [lookupTask_modifyTask_self _ _ _ (by intro u; rfl), hfind] at h'
                simp only [Option.map_some'] at h'
                cases h'
                right
                rw [hst]
                rfl
              · rw [lookupTask_modifyTask_ne _ _ _ _ (fun hx => htid hx.symm)
                  (by intro u; rfl), hfind] at h'
                cases h'
                exact Or.inl rfl
          refine ⟨hgraph, ?_⟩
          intro h h2
          simp only [opTid, Option.some.injEq] at h
          subst h
          rw [hfind] at hfind₂
          cases hfind₂
          rw [hst] at h2
          simp [statusOk] at h2
        · refine ⟨?_, ?_⟩
          · intro t' h'
            simp only [step, applyOp] at h'
            rw [confirm_task_conflict _ _ _ _ hfind₂ hc hst, hfind] at h'
            cases h'
            exact Or.inl rfl
          · intro h _
            simp only [opTid, Option.some.injEq] at h
            subst h
            rw [hfind] at hfind₂
            cases hfind₂
            refine ⟨?_, ?_, ?_, ?_⟩
            · simp [applyOp, confirm_task_conflict _ _ _ _ hfind hc hst]
            · simp [step, applyOp, confirm_task_conflict _ _ _ _ hfind hc hst]
            · intro _
              simp [applyOp, confirm_task_conflict _ _ _ _ hfind hc hst]
            · intro h3
              simp [actorOk, hc] at h3
      · refine ⟨?_, ?_⟩
        · intro t' h'
          simp only [step, applyOp] at h'
          rw [confirm_task_forbidden _ _ _ _ hfind₂ hc, hfind] at h'
          cases h'
          exact Or.inl rfl
        · intro h _
          simp only [opTid, Option.some.injEq] at h
          subst h
          rw [hfind] at hfind₂
          cases hfind₂
          refine ⟨?_, ?_, ?_, ?_⟩
          · simp [applyOp, confirm_task_forbidden _ _ _ _ hfind hc]
          · simp [step, applyOp, confirm_task_forbidden _ _ _ _ hfind hc]
          · intro h3
            simp [actorOk, hc] at h3
          · intro _
            simp [applyOp, confirm_task_forbidden _ _ _ _ hfind hc]
  | reject uid tid₂ =>
    cases hfind₂ : lookupTask tid₂ s.tasks with
    | none =>
      refine ⟨?_, ?_⟩
      · intro t' h'
        simp only [step, applyOp] at h'
        rw [reject_task_notFound _ _ _ hfind₂, hfind] at h'
        cases h'
        exact Or.inl rfl
      · intro h _
        simp only [opTid, Option.some.injEq] at h
        subst h
        rw [hfind] at hfind₂
        cases hfind₂
    | some t₂ =>
      by_cases hc : t₂.customer_id = uid
      · by_cases hst : t₂.status ≠ .taken ∧ t₂.status ≠ .completed
        · refine ⟨?_, ?_⟩
          · intro t' h'
            simp only [step, applyOp] at h'
            rw [reject_task_conflict _ _ _ _ hfind₂ hc hst, hfind] at h'
            cases h'
            exact Or.inl rfl
          · intro h _
            simp only [opTid, Option.some.injEq] at h
            subst h
            rw [hfind] at hfind₂
            cases hfind₂
            refine ⟨?_, ?_, ?_, ?_⟩
            · simp [applyOp, reject_task_conflict _ _ _ _ hfind hc hst]
            · simp [step, applyOp, reject_task_conflict _ _ _ _ hfind hc hst]
            · intro _
              simp [applyOp, reject_task_conflict _ _ _ _ hfind hc hst]
            · intro h3
              simp [actorOk, hc] at h3
        · have hor : t₂.status = .taken ∨ t₂.status = .completed := by
            by_cases h1 : t₂.status = .taken
            · exact Or.inl h1
            · by_cases h2 : t₂.status = .completed
              · exact Or.inr h2
              · exact absurd ⟨h1, h2⟩ hst
          refine ⟨?_, ?_⟩
          · intro t' h'
            simp only [step, applyOp] at h'
            rw [reject_task_success _ _ _ _ hfind₂ hc hst] at h'
            try simp only [] at h'
            by_cases htid : tid₂ = tid
            · subst htid
              rw [hfind] at hfind₂
              cases hfind₂
              rw [lookupTask_modifyTask_self _ _ _ (by intro u; rfl), hfind] at h'
              simp only [Option.map_some'] at h'
              cases h'
              right
              rcases hor with h1 | h1 <;> rw [h1] <;> rfl
            · rw [lookupTask_modifyTask_ne _ _ _ _ (fun hx => htid hx.symm)
                (by intro u; rfl), hfind] at h'
              cases h'
              exact Or.inl rfl
          · intro h h2
            simp only [opTid, Option.some.injEq] at h
            subst h
            rw [hfind] at hfind₂
            cases hfind₂
            rcases hor with h1 | h1 <;> rw [h1] at h2 <;> simp [statusOk] at h2
      · refine ⟨?_, ?_⟩
        · intro t' h'
          simp only [step, applyOp] at h'
          rw [reject_task_forbidden _ _ _ _ hfind₂ hc, hfind] at h'
          cases h'
          exact Or.inl rfl
        · intro h _
          simp only [opTid, Option.some.injEq] at h
          subst h
          rw [hfind] at hfind₂
          cases hfind₂
          refine ⟨?_, ?_, ?_, ?_⟩
          · simp [applyOp, reject_task_forbidden _ _ _ _ hfind hc]
          · simp [step, applyOp, reject_task_forbidden _ _ _ _ hfind hc]
          · intro h3
            simp [actorOk, hc] at h3
          · intro _
            simp [applyOp, reject_task_forbidden _ _ _ _ hfind hc]
  | add uid amount =>
    refine ⟨?_, ?_⟩
    · intro t' h'
      have htk : (step s (Op.add uid amount)).tasks = s.tasks := by
        by_cases ha : amount < 1
        · simp [step, applyOp, balance_add_invalid _ _ _ ha]
        · simp [step, applyOp, balance_add_success _ _ _ ha]
      rw [htk, hfind] at h'
      cases h'
      exact Or.inl rfl
    · intro h
      simp [opTid] at h
  | withdraw uid amount =>
    refine ⟨?_, ?_⟩
    · intro t' h'
      have htk : (step s (Op.withdraw uid amount)).tasks = s.tasks := by
        simp [step, applyOp, balance_withdraw]
      rw [htk, hfind] at h'
      cases h'
      exact Or.inl rfl
    · intro h
      simp [opTid] at h

theorem task_status_machine_witness :
    lookupTask 1 (run [Op.auth 1, Op.create 1 "t" "d" 5 "c"] init).tasks =
      some ⟨1, "t", "d", 5, "c", 1, 5, .free, none, ""⟩ ∧
    opTid (Op.confirm 1 1) = some 1 ∧
    statusOk (Op.confirm 1 1) Status.free = false ∧
    actorOk (Op.confirm 1 1) ⟨1, "t", "d", 5, "c", 1, 5, .free, none, ""⟩ = true ∧
    (applyOp (Op.confirm 1 1)
        (run [Op.auth 1, Op.create 1 "t" "d" 5 "c"] init)).2 =
      some Err.conflict ∧
    step (run [Op.auth 1, Op.create 1 "t" "d" 5 "c"] init) (Op.confirm 1 1) =
      run [Op.auth 1, Op.create 1 "t" "d" 5 "c"] init ∧
    actorOk (Op.confirm 2 1) ⟨1, "t", "d", 5, "c", 1, 5, .free, none, ""⟩ = false ∧
    (applyOp (Op.confirm 2 1)
        (run [Op.auth 1, Op.create 1 "t" "d" 5 "c"] init)).2 =
      some Err.forbidden ∧
    step (run [Op.auth 1, Op.create 1 "t" "d" 5 "c"] init) (Op.confirm 2 1) =
      run [Op.auth 1, Op.create 1 "t" "d" 5 "c"] init := by
  have h := task_status_machine (Op.confirm 1 1)
    (run [Op.auth 1, Op.create 1 "t" "d" 5 "c"] init) 1
    ⟨1, "t", "d", 5, "c", 1, 5, .free, none, ""⟩ (by decide)
  have h2 := h.2 (by decide) (by decide)
  have hf := task_status_machine (Op.confirm 2 1)
    (run [Op.auth 1, Op.create 1 "t" "d" 5 "c"] init) 1
    ⟨1, "t", "d", 5, "c", 1, 5, .free, none, ""⟩ (by decide)
  have hf2 := hf.2 (by decide) (by decide)
  exact ⟨by decide, by decide, by decide, by decide, h2.2.2.1 (by decide), h2.2.1,
    by decide, hf2.2.2.2 (by decide), hf2.2.1⟩

/-- **C5 (code bug)**: a valid `create` debits exactly the price, appends
exactly one `freeze` entry, creates the task in `free` with a fresh id and
no performer and bumps the id counter — but it increments the customer's
`created_tasks` counter **twice** (the guarded block at main.py:329-334 and
the duplicate line main.py:336), not once as specified: after a single
create from a fresh account the counter reads 2. -/
theorem create_counter_double_bump :
    lookupTask 1 (run [Op.auth 1, Op.create 1 "t" "d" 5 "c"] init).tasks =
      some ⟨1, "t", "d", 5, "c", 1, 5, .free, none, ""⟩ ∧
    lookupBal 1 (run [Op.auth 1, Op.create 1 "t" "d" 5 "c"] init).balances =
      some ⟨995, [⟨"freeze", 5, some 1⟩]⟩ ∧
    (run [Op.auth 1, Op.create 1 "t" "d" 5 "c"] init).counter = 2 ∧
    lookupProf 1 (run [Op.auth 1, Op.create 1 "t" "d" 5 "c"] init).users =
      some ⟨2, 0⟩ := by
  decide

/-- **C6 (code bug)**: in the §8 scenario (A authenticates with the 1000
grant, creates a price-200 task, B takes it, B completes it, A confirms)
the task ends `confirmed`, A's balance stays 800, B's balance rises by
exactly 200 to 1200 with exactly one `transfer` entry — but B's
`finished_tasks` counter is incremented **twice** by `confirm`
(main.py:427-432 and the duplicate at main.py:434-435), so it reads 2
after one confirmation, not 1 as specified. -/
theorem confirm_counter_double_bump :
    (lookupTask 1 (run [Op.auth 1, Op.auth 2, Op.create 1 "t" "d" 200 "c",
        Op.take 2 1, Op.complete 2 1 "done", Op.confirm 1 1] init).tasks).map
        Task.status = some Status.confirmed ∧
    lookupBal 1 (run [Op.auth 1, Op.auth 2, Op.create 1 "t" "d" 200 "c",
        Op.take 2 1, Op.complete 2 1 "done", Op.confirm 1 1] init).balances =
      some ⟨800, [⟨"freeze", 200, some 1⟩]⟩ ∧
    lookupBal 2 (run [Op.auth 1, Op.auth 2, Op.create 1 "t" "d" 200 "c",
        Op.take 2 1, Op.complete 2 1 "done", Op.confirm 1 1] init).balances =
      some ⟨1200, [⟨"transfer", 200, some 1⟩]⟩ ∧
    lookupProf 2 (run [Op.auth 1, Op.auth 2, Op.create 1 "t" "d" 200 "c",
        Op.take 2 1, Op.complete 2 1 "done", Op.confirm 1 1] init).users =
      some ⟨0, 2⟩ := by
  decide

/-- **C7**: escrow is released at most once per task.  A successful
`confirm` leaves the task `confirmed` and a successful `reject` leaves it
`rejected`; on a `rejected` task any `confirm` fails without touching the
state (with `Conflict` for the customer, `Forbidden` for anyone else), and
on a `confirmed` task any `reject` fails the same way — so the frozen
amount can never be paid out twice. -/
theorem escrow_single_release (s : St) (uid : Int) (tid : Nat) (t : Task)
    (hfind : lookupTask tid s.tasks = some t) :
    ((confirm_task uid tid s).2 = none →
      (lookupTask tid (confirm_task uid tid s).1.tasks).map Task.status =
        some Status.confirmed) ∧
    ((reject_task uid tid s).2 = none →
      (lookupTask tid (reject_task uid tid s).1.tasks).map Task.status =
        some Status.rejected) ∧
    (t.status = .rejected →
      confirm_task uid tid s =
        (s, some (if t.customer_id = uid then Err.conflict else Err.forbidden))) ∧
    (t.status = .confirmed →
      reject_task uid tid s =
        (s, some (if t.customer_id = uid then Err.conflict else Err.forbidden))) := by
  refine ⟨?_, ?_, ?_, ?_⟩
  · intro hnone
    by_cases hc : t.customer_id = uid
    · by_cases hst : t.status = .completed
      · cases hperf : t.performer_id with
        | none =>
          rw [confirm_task_noPerformer _ _ _ _ hfind hc hst hperf] at hnone
          simp at hnone
        | some pid =>
          rw [confirm_task_success _ _ _ _ _ hfind hc hst hperf]
          have hl := lookupTask_modifyTask_self tid
            (fun t => { t with status := Status.confirmed }) s.tasks
            (by intro u; rfl)
          rw [hfind] at hl
          simp only []
          rw [hl]
          rfl
      · rw [confirm_task_conflict _ _ _ _ hfind hc hst] at hnone
        simp at hnone
    · rw [confirm_task_forbidden _ _ _ _ hfind hc] at hnone
      simp at hnone
  · intro hnone
    by_cases hc : t.customer_id = uid
    · by_cases hst : t.status ≠ .taken ∧ t.status ≠ .completed
      · rw [reject_task_conflict _ _ _ _ hfind hc hst] at hnone
        simp at hnone
      · rw [reject_task_success _ _ _ _ hfind hc hst]
        have hl := lookupTask_modifyTask_self tid
          (fun t => { t with status := Status.rejected }) s.tasks
          (by intro u; rfl)
        rw [hfind] at hl
        simp only []
        rw [hl]
        rfl
    · rw [reject_task_forbidden _ _ _ _ hfind hc] at hnone
      simp at hnone
  · intro hst
    have hstne : t.status ≠ .completed := by rw [hst]; decide
    by_cases hc : t.customer_id = uid
    · rw [if_pos hc, confirm_task_conflict _ _ _ _ hfind hc hstne]
    · rw [if_neg hc, confirm_task_forbidden _ _ _ _ hfind hc]
  · intro hst
    have hstne : t.status ≠ .taken ∧ t.status ≠ .completed := by
      rw [hst]
      decide
    by_cases hc : t.customer_id = uid
    · rw [if_pos hc, reject_task_conflict _ _ _ _ hfind hc hstne]
    · rw [if_neg hc, reject_task_forbidden _ _ _ _ hfind hc]

theorem escrow_single_release_witness :
    lookupTask 1 (run [Op.auth 1, Op.auth 2, Op.create 1 "t" "d" 5 "c",
        Op.take 2 1, Op.reject 1 1] init).tasks =
      some ⟨1, "t", "d", 5, "c", 1, 5, .rejected, some 2, ""⟩ ∧
    confirm_task 1 1 (run [Op.auth 1, Op.auth 2, Op.create 1 "t" "d" 5 "c",
        Op.take 2 1, Op.reject 1 1] init) =
      (run [Op.auth 1, Op.auth 2, Op.create 1 "t" "d" 5 "c",
        Op.take 2 1, Op.reject 1 1] init, some Err.conflict) := by
  have h := escrow_single_release
    (run [Op.auth 1, Op.auth 2, Op.create 1 "t" "d" 5 "c",
      Op.take 2 1, Op.reject 1 1] init) 1 1
    ⟨1, "t", "d", 5, "c", 1, 5, .rejected, some 2, ""⟩ (by decide)
  have h3 := h.2.2.1 rfl
  exact ⟨by decide, by simpa using h3⟩

/-- **C8**: the full case analysis of `take`: unknown id gives `NotFound`,
self-take gives `Forbidden`, a non-`free` status gives `Conflict`, and
otherwise the task becomes `taken` with the actor as performer while
balances, users and the counter stay untouched. -/
theorem take_task_spec (s : St) (uid : Int) (tid : Nat) :
    (lookupTask tid s.tasks = none →
      take_task uid tid s = (s, some Err.notFound)) ∧
    (∀ t, lookupTask tid s.tasks = some t →
      (t.customer_id = uid → take_task uid tid s = (s, some Err.forbidden)) ∧
      (t.customer_id ≠ uid → t.status ≠ .free →
        take_task uid tid s = (s, some Err.conflict)) ∧
      (t.customer_id ≠ uid → t.status = .free →
        (take_task uid tid s).2 = none ∧
        lookupTask tid (take_task uid tid s).1.tasks =
          some { t with status := .taken, performer_id := some uid } ∧
        (take_task uid tid s).1.balances = s.balances ∧
        (take_task uid tid s).1.users = s.users ∧
        (take_task uid tid s).1.counter = s.counter)) := by
  refine ⟨?_, ?_⟩
  · intro h
    exact take_task_notFound _ _ _ h
  · intro t hfind
    refine ⟨?_, ?_, ?_⟩
    · intro hc
      exact take_task_own _ _ _ _ hfind hc
    · intro hc hst
      exact take_task_conflict _ _ _ _ hfind hc hst
    · intro hc hst
      rw [take_task_success _ _ _ _ hfind hc hst]
      refine ⟨rfl, ?_, rfl, rfl, rfl⟩
      have hl := lookupTask_modifyTask_self tid
        (fun u => { u with status := Status.taken, performer_id := some uid })
        s.tasks (by intro u; rfl)
      rw [hfind] at hl
      simpa using hl

theorem take_task_spec_witness :
    take_task 2 9 (run [Op.auth 1, Op.auth 2, Op.create 1 "t" "d" 5 "c"] init) =
      (run [Op.auth 1, Op.auth 2, Op.create 1 "t" "d" 5 "c"] init,
        some Err.notFound) ∧
    take_task 1 1 (run [Op.auth 1, Op.auth 2, Op.create 1 "t" "d" 5 "c"] init) =
      (run [Op.auth 1, Op.auth 2, Op.create 1 "t" "d" 5 "c"] init,
        some Err.forbidden) ∧
    (take_task 2 1 (run [Op.auth 1, Op.auth 2, Op.create 1 "t" "d" 5 "c"] init)).2 =
      none ∧
    lookupTask 1 (take_task 2 1
        (run [Op.auth 1, Op.auth 2, Op.create 1 "t" "d" 5 "c"] init)).1.tasks =
      some ⟨1, "t", "d", 5, "c", 1, 5, .taken, some 2, ""⟩ := by
  have h9 := (take_task_spec
    (run [Op.auth 1, Op.auth 2, Op.create 1 "t" "d" 5 "c"] init) 2 9).1 (by decide)
  have h1 := ((take_task_spec
    (run [Op.auth 1, Op.auth 2, Op.create 1 "t" "d" 5 "c"] init) 1 1).2
    ⟨1, "t", "d", 5, "c", 1, 5, .free, none, ""⟩ (by decide)).1 (by decide)
  have h2 := ((take_task_spec
    (run [Op.auth 1, Op.auth 2, Op.create 1 "t" "d" 5 "c"] init) 2 1).2
    ⟨1, "t", "d", 5, "c", 1, 5, .free, none, ""⟩ (by decide)).2.2
    (by decide) (by decide)
  exact ⟨h9, h1, h2.1, h2.2.1⟩

/-- Filtering preserves distinctness of the mapped ids. -/
theorem nodup_ids_filter (l : List Task) (p : Task → Bool)
    (h : (l.map Task.id).Nodup) : ((l.filter p).map Task.id).Nodup :=
  List.Nodup.sublist ((List.filter_sublist l).map Task.id) h

/-- Sorting by id descending (the `sort=new` comparator) on a list with
distinct ids yields strictly descending ids. -/
theorem mergeSort_ids_strict (l : List Task) (h : (l.map Task.id).Nodup) :
    ((l.mergeSort (fun a b => b.id ≤ a.id)).map Task.id).Pairwise
      (fun a b => b < a) := by
  have hs := @List.sorted_mergeSort Task
    (fun a b => decide (b.id ≤ a.id))
    (by
      intro a b c hab hbc
      simp only [decide_eq_true_iff] at hab hbc ⊢
      omega)
    (by
      intro a b
      simp only [Bool.or_eq_true, decide_eq_true_iff]
      omega) l
  have hperm := List.mergeSort_perm l (fun a b => b.id ≤ a.id)
  have hnd : ((l.mergeSort (fun a b => b.id ≤ a.id)).map Task.id).Nodup :=
    ((hperm.map Task.id).nodup_iff).mpr h
  have hle : (l.mergeSort (fun a b => b.id ≤ a.id)).Pairwise
      (fun a b => b.id ≤ a.id) :=
    hs.imp (fun hab => by simpa using hab)
  have hne : (l.mergeSort (fun a b => b.id ≤ a.id)).Pairwise
      (fun a b => Task.id a ≠ Task.id b) := List.pairwise_map.mp hnd
  rw [List.pairwise_map]
  exact List.Pairwise.imp₂ (fun a b h1 h2 => by omega) hle hne

/-- **C9**: listing with both price bounds returns exactly the tasks whose
price lies between the bounds inclusively (with or without the
category-equality filter), and `sort=new` orders the ids strictly
descending (for any filters, given the distinct-id discipline of the task
store) while returning exactly the stored tasks when no filter is set. -/
theorem list_tasks_spec (s : St) (c : String) (pmin pmax : Int) :
    (∀ t, t ∈ list_tasks none (some pmin) (some pmax) none s ↔
      t ∈ s.tasks ∧ pmin ≤ t.price ∧ t.price ≤ pmax) ∧
    (c ≠ "" → ∀ t, t ∈ list_tasks (some c) (some pmin) (some pmax) none s ↔
      t ∈ s.tasks ∧ t.category = c ∧ pmin ≤ t.price ∧ t.price ≤ pmax) ∧
    ((s.tasks.map Task.id).Nodup → ∀ cat pmin₂ pmax₂,
      ((list_tasks cat pmin₂ pmax₂ (some "new") s).map Task.id).Pairwise
        (fun a b => b < a)) ∧
    (∀ t, t ∈ list_tasks none none none (some "new") s ↔ t ∈ s.tasks) := by
  refine ⟨?_, ?_, ?_, ?_⟩
  · intro t
    simp only [list_tasks]
    rw [if_neg (by decide), if_neg (by decide), if_neg (by decide)]
    simp only [List.mem_filter, decide_eq_true_iff]
    tauto
  · intro hc t
    simp only [list_tasks]
    rw [if_neg hc, if_neg (by decide), if_neg (by decide), if_neg (by decide)]
    simp only [List.mem_filter, decide_eq_true_iff]
    tauto
  · intro hnd cat pmin₂ pmax₂
    rcases cat with _ | c₂ <;> rcases pmin₂ with _ | m1 <;>
      rcases pmax₂ with _ | m2 <;>
      · simp only [list_tasks]
        rw [if_pos trivial]
        apply mergeSort_ids_strict
        repeat apply nodup_ids_filter
        try exact hnd
        try split <;> first | exact hnd | exact nodup_ids_filter _ _ hnd
  · intro t
    simp only [list_tasks]
    rw [if_pos trivial]
    exact (List.mergeSort_perm s.tasks _).mem_iff

theorem list_tasks_spec_witness :
    (⟨2, "b", "d", 20, "c2", 1, 5, .free, none, ""⟩ : Task) ∈
      list_tasks none (some 10) (some 50) none
        (run [Op.auth 1, Op.create 1 "a" "d" 5 "c1", Op.create 1 "b" "d" 20 "c2",
          Op.create 1 "e" "d" 60 "c1"] init) ∧
    (⟨2, "b", "d", 20, "c2", 1, 5, .free, none, ""⟩ : Task) ∈
      list_tasks (some "c2") (some 10) (some 50) none
        (run [Op.auth 1, Op.create 1 "a" "d" 5 "c1", Op.create 1 "b" "d" 20 "c2",
          Op.create 1 "e" "d" 60 "c1"] init) ∧
    ((list_tasks none none none (some "new")
        (run [Op.auth 1, Op.create 1 "a" "d" 5 "c1", Op.create 1 "b" "d" 20 "c2",
          Op.create 1 "e" "d" 60 "c1"] init)).map Task.id).Pairwise
      (fun a b => b < a) := by
  have h := list_tasks_spec
    (run [Op.auth 1, Op.create 1 "a" "d" 5 "c1", Op.create 1 "b" "d" 20 "c2",
      Op.create 1 "e" "d" 60 "c1"] init) "c2" 10 50
  exact ⟨(h.1 _).mpr ⟨by decide, by decide, by decide⟩,
    ((h.2.1 (by decide)) _).mpr ⟨by decide, by decide, by decide, by decide⟩,
    h.2.2.1 (by decide) none none none⟩

/-- **C10**: `balance_withdraw` is a stub.  For every state, caller and
amount (zero and negative amounts included — nothing is validated) it
succeeds, appends exactly one `withdraw_stub` entry to the caller's
history, and leaves the caller's balance, every other user's balance
record, all tasks, all profiles and the id counter unchanged. -/
theorem balance_withdraw_spec (s : St) (uid amount : Int) :
    (balance_withdraw uid amount s).2 = none ∧
    (balance_withdraw uid amount s).1.tasks = s.tasks ∧
    (balance_withdraw uid amount s).1.users = s.users ∧
    (balance_withdraw uid amount s).1.counter = s.counter ∧
    effBal (balance_withdraw uid amount s).1 uid = effBal s uid ∧
    effHist (balance_withdraw uid amount s).1 uid =
      effHist s uid ++ [⟨"withdraw_stub", amount, none⟩] ∧
    (∀ v, v ≠ uid →
      lookupBal v (balance_withdraw uid amount s).1.balances =
        lookupBal v s.balances) := by
  refine ⟨rfl, rfl, rfl, rfl, ?_, ?_, ?_⟩
  · simp [balance_withdraw, effBal, lookupBal_modifyBal_self]
  · simp [balance_withdraw, effHist, lookupBal_modifyBal_self]
  · intro v hv
    simp [balance_withdraw, lookupBal_modifyBal_ne _ _ _ _ _ hv]

theorem balance_withdraw_spec_witness :
    (balance_withdraw 1 (-5) (run [Op.auth 1, Op.auth 2] init)).2 = none ∧
    effBal (balance_withdraw 1 (-5) (run [Op.auth 1, Op.auth 2] init)).1 1 =
      effBal (run [Op.auth 1, Op.auth 2] init) 1 ∧
    effHist (balance_withdraw 1 (-5) (run [Op.auth 1, Op.auth 2] init)).1 1 =
      effHist (run [Op.auth 1, Op.auth 2] init) 1 ++
        [⟨"withdraw_stub", -5, none⟩] ∧
    lookupBal 2
        (balance_withdraw 1 (-5) (run [Op.auth 1, Op.auth 2] init)).1.balances =
      lookupBal 2 (run [Op.auth 1, Op.auth 2] init).balances := by
  have h := balance_withdraw_spec (run [Op.auth 1, Op.auth 2] init) 1 (-5)
  exact ⟨h.1, h.2.2.2.2.1, h.2.2.2.2.2.1, h.2.2.2.2.2.2 2 (by decide)⟩

end Taskboard
